import Mathlib

/-!
Shallow embedding of the TerminalGrid extension's terminal-state tracking and
crash-recovery subsystem (src/extension.ts, src/utils.ts, and the grid-layout
helpers), together with theorems settling the frozen claims about it.

JavaScript-specific behaviour is modelled explicitly:
  * `undefined` values become `Option`;
  * JS truthiness on optional strings/numbers (`if (x)`) is `jsTruthyStr` /
    `jsTruthyNat` (the empty string and `0` are falsy);
  * the JS string primitives `toLowerCase`, `trim`, `split`, `includes` and
    `endsWith` are rendered over the character sequence (`String.data`);
  * the in-memory `Map<string,string>` is a function `String → Option String`
    (`get` = application, `set` = pointwise update, `has` = `isSome`);
  * `Date.now()` timestamps are `Int` so that age subtraction behaves as in JS.
-/

/-! ## JS primitives -/

/-- JS truthiness for `string | undefined`: `undefined` and `""` are falsy. -/
def jsTruthyStr : Option String → Option String
  | some s => if s = "" then none else some s
  | none => none

/-- JS truthiness for `number | undefined`: `undefined` and `0` are falsy. -/
def jsTruthyNat : Option Nat → Option Nat
  | some n => if n = 0 then none else some n
  | none => none

/-- JS `a || b` on optional strings (both `undefined` and `""` fall through). -/
def jsOrStr (a b : Option String) : Option String :=
  match a with
  | some s => if s = "" then b else some s
  | none => b

/-- JS `s.toLowerCase()` (over the ASCII range relevant to this program). -/
def strToLower (s : String) : String :=
  String.mk (s.data.map Char.toLower)

/-- Strip leading and trailing whitespace from a character sequence. -/
def trimChars (l : List Char) : List Char :=
  ((l.dropWhile Char.isWhitespace).reverse.dropWhile Char.isWhitespace).reverse

/-- JS `s.trim()`. -/
def strTrim (s : String) : String :=
  String.mk (trimChars s.data)

/-- JS `s.split(sep)` with a single-character separator, over characters. -/
def splitChar (sep : Char) : List Char → List (List Char)
  | [] => [[]]
  | c :: cs =>
    match splitChar sep cs with
    | [] => [[c]]
    | h :: t => if c = sep then [] :: h :: t else (c :: h) :: t

/-- JS `s.split(sep)` returning strings. -/
def strSplit (sep : Char) (s : String) : List String :=
  (splitChar sep s.data).map String.mk

/-- JS `s.includes(sub)`: contiguous substring containment. -/
def strIncludes (s sub : String) : Bool :=
  decide (sub.data <:+: s.data)

/-- JS `s.endsWith(suffix)`: suffix test on the character sequence. -/
def strEndsWith (s suffix : String) : Bool :=
  suffix.data.isSuffixOf s.data

/-! ## Data model (src/extension.ts) -/

/-- Record `SavedTerminal` from src/extension.ts: `{ cwd: string; name?: string }`. -/
structure SavedTerminal where
  cwd : String
  name : Option String
deriving DecidableEq, Repr

/-- Record `TerminalState` from src/extension.ts:
`{ terminals: SavedTerminal[]; savedAt: number; gracefulExit: boolean }`. -/
structure TerminalState where
  terminals : List SavedTerminal
  savedAt : Int
  gracefulExit : Bool
deriving DecidableEq, Repr

/-- The in-memory `terminalCwdMap : Map<string, string>`, modelled extensionally. -/
def CwdMap : Type := String → Option String

/-- Operation `Map.set` on the cwd map. -/
def mapSet (m : CwdMap) (k v : String) : CwdMap :=
  fun x => if x = k then some v else m x

/-- The empty cwd map. -/
def emptyCwdMap : CwdMap := fun _ => none

/-- The observable host-facing signals of one terminal, as the tracking code
reads them: display name, `creationOptions.name`, `creationOptions.cwd`,
`shellIntegration.cwd` (already rendered to a path string), and the process id.
Absent (`undefined`) signals are `none`. -/
structure TerminalSignals where
  name : String
  creationName : Option String
  creationCwd : Option String
  shellIntegrationCwd : Option String
  pid : Option Nat
deriving DecidableEq, Repr

/-! ## utils.ts -/

/-- Function `getFolderName` (utils.ts): last non-empty `/`-separated component,
or `"Terminal"` when there is none. -/
def getFolderName (cwd : String) : String :=
  ((((strSplit '/' cwd).filter (fun p => p.length > 0)).getLast?).getD "Terminal")

/-- Function `isClaudeProcess` (utils.ts): the lowercased, trimmed process name is
exactly `"claude"` or ends with `"/claude"`. -/
def isClaudeProcess (processName : String) : Bool :=
  let name := strTrim (strToLower processName)
  name == "claude" || strEndsWith name "/claude"

/-- The recursion behind `deduplicateTerminalsByCwd` (utils.ts): the stateful
`Set`-based `filter`, with the seen-set made explicit. -/
def dedupGo (seen : List String) : List SavedTerminal → List SavedTerminal
  | [] => []
  | t :: ts =>
      if t.cwd ∈ seen then dedupGo seen ts
      else t :: dedupGo (t.cwd :: seen) ts

/-- Function `deduplicateTerminalsByCwd` (utils.ts): drop every terminal whose cwd
already occurred earlier in the list. -/
def deduplicateTerminalsByCwd (terminals : List SavedTerminal) : List SavedTerminal :=
  dedupGo [] terminals

/-- Function `hasDuplicateCwds` (utils.ts): `new Set(cwds).size < cwds.length`. -/
def hasDuplicateCwds (terminals : List SavedTerminal) : Bool :=
  decide (((terminals.map (·.cwd)).dedup).length < (terminals.map (·.cwd)).length)

/-- Spec-side definition, from the spec's words only: "keeps exactly the first
occurrence of each distinct cwd, in original order" — keep the head and delete
every later record with the same cwd, recursively. Used to compare
`deduplicateTerminalsByCwd` against the specified behaviour. -/
def keepFirstOccurrenceByCwd : List SavedTerminal → List SavedTerminal
  | [] => []
  | t :: ts => t :: keepFirstOccurrenceByCwd (ts.filter (fun u => u.cwd ≠ t.cwd))
termination_by l => l.length
decreasing_by
  simp only [List.length_cons]
  exact Nat.lt_succ_of_le (List.length_filter_le _ ts)

/-! ## CWD tracking (src/extension.ts) -/

/-- Function `getTerminalKey`: `` `${terminal.name}-${terminal.creationOptions?.name || 'default'}` ``. -/
def getTerminalKey (t : TerminalSignals) : String :=
  t.name ++ "-" ++ ((jsTruthyStr t.creationName).getD "default")

/-- The local `isValidCwd` helper of `trackTerminalCwd`:
`!!cwd && cwd !== '/' && cwd !== homeDir`. -/
def isValidCwd (homeDir : String) : Option String → Bool
  | none => false
  | some c => !(c == "") && !(c == "/") && !(c == homeDir)

/-- The workspace-folder name-match loop inside `trackTerminalCwd`
(extension.ts:730-737): the first folder whose lowercased basename and the
lowercased terminal name contain one another. -/
def findWorkspaceNameMatch (terminalName : String) (workspaceFolders : List String) :
    Option String :=
  workspaceFolders.find? fun folder =>
    let folderName := strToLower (getFolderName folder)
    strIncludes terminalName folderName || strIncludes folderName terminalName

/-- Function `trackTerminalCwd` (extension.ts:667-748): one run of the CWD tracking
update for one terminal. `processCwdOf` abstracts `getProcessCwd` (the OS
process-tree inspection); `workspaceFolders` are the open workspace roots'
paths. Returns the updated in-memory cwd map. -/
def trackTerminalCwd (homeDir : String) (workspaceFolders : List String)
    (processCwdOf : Nat → Option String) (t : TerminalSignals) (m : CwdMap) : CwdMap :=
  let key := getTerminalKey t
  let existingCwd := m key
  match jsTruthyStr t.shellIntegrationCwd with
  | some cwdPath =>
      -- Only update if new CWD is valid OR we have no existing valid CWD
      if isValidCwd homeDir (some cwdPath) || !(isValidCwd homeDir existingCwd) then
        mapSet m key cwdPath
      else m
  | none =>
    match jsTruthyStr t.creationCwd with
    | some cwdPath =>
        if isValidCwd homeDir (some cwdPath) || !(isValidCwd homeDir existingCwd) then
          mapSet m key cwdPath
        else m
    | none =>
      -- `if (pid) { ... }` may return early or fall through to the name match
      let pidResult : Option CwdMap :=
        match jsTruthyNat t.pid with
        | some pid =>
          match processCwdOf pid with
          | some processCwd =>
              if isValidCwd homeDir (some processCwd) then some (mapSet m key processCwd)
              else if isValidCwd homeDir existingCwd then some m
              else none
          | none =>
              if isValidCwd homeDir existingCwd then some m else none
        | none => none
      match pidResult with
      | some m2 => m2
      | none =>
        match workspaceFolders with
        | [] => m
        | firstFolder :: _ =>
          match findWorkspaceNameMatch (strToLower t.name) workspaceFolders with
          | some folder => mapSet m key folder
          | none =>
              -- Fall back to first workspace folder, only if the key is absent
              if (m key).isNone then mapSet m key firstFolder else m

/-- Function `getTerminalCwd` (extension.ts:404-433): resolve one terminal's cwd.
Returns the resolved value together with the (possibly updated, because the
process-derived cwd is cached) cwd map. -/
def getTerminalCwd (processCwdOf : Nat → Option String) (t : TerminalSignals)
    (m : CwdMap) : Option String × CwdMap :=
  match jsTruthyStr t.shellIntegrationCwd with
  | some c => (some c, m)
  | none =>
    match jsTruthyStr (m (getTerminalKey t)) with
    | some storedCwd => (some storedCwd, m)
    | none =>
      match jsTruthyNat t.pid with
      | some pid =>
        match jsTruthyStr (processCwdOf pid) with
        | some processCwd => (some processCwd, mapSet m (getTerminalKey t) processCwd)
        | none => (none, m)
      | none => (none, m)

/-! ## Persistence and crash recovery (src/extension.ts) -/

/-- Function `saveTerminalState` (extension.ts:493-515), with the collection pass's
result (`collectTerminalState`) passed in and the durable record under the key
`'terminalGridState'` modelled as the `store` argument; returns the record
after the call. -/
def saveTerminalState (collected : List SavedTerminal) (gracefulExit : Bool)
    (now : Int) (store : Option TerminalState) : Option TerminalState :=
  if collected.length = 0 && !gracefulExit then
    -- Don't save empty state unless it's a graceful exit
    store
  else
    some { terminals := collected, savedAt := now, gracefulExit := gracefulExit }

/-- A terminal pane created during replay: the `TerminalOptions` the code
passes to `createTerminal` (cwd and optional display name). -/
structure CreatedTerminal where
  cwd : String
  name : Option String
deriving DecidableEq, Repr

/-- Observable outcome of one `restoreTerminals` run: the pane-creation calls
in order, whether the durable record was cleared, how many already-open panes
were disposed, and the returned boolean. -/
structure RestoreResult where
  created : List CreatedTerminal
  storeCleared : Bool
  disposedExisting : Nat
  restored : Bool
deriving DecidableEq, Repr

/-- Constant `maxAgeMs` (extension.ts:546): `60 * 60 * 1000`. -/
def maxAgeMs : Int := 60 * 60 * 1000

/-- The replayed terminal's display name (extension.ts:582-583):
`savedTerminal.name || (autoNameByFolder ? getFolderName(savedTerminal.cwd) : undefined)`. -/
def restoredTerminalName (autoNameByFolder : Bool) (t : SavedTerminal) : Option String :=
  jsOrStr t.name (if autoNameByFolder then some (getFolderName t.cwd) else none)

/-- Function `restoreTerminals` (extension.ts:517-649): the crash-recovery reconciler.
`openCount` is `vscode.window.terminals.length` at the host-restored-conflict
check; `now` is `Date.now()`. -/
def restoreTerminals (enableRestore : Bool) (autoNameByFolder : Bool) (now : Int)
    (openCount : Nat) (state : Option TerminalState) : RestoreResult :=
  if !enableRestore then ⟨[], false, 0, false⟩
  else
    match state with
    | none => ⟨[], false, 0, false⟩
    | some s =>
      if s.gracefulExit then ⟨[], true, 0, false⟩
      else if now - s.savedAt > maxAgeMs then ⟨[], true, 0, false⟩
      else if s.terminals.length = 0 then ⟨[], false, 0, false⟩
      else
        let uniqueTerminals := deduplicateTerminalsByCwd s.terminals
        let created := uniqueTerminals.map fun t =>
          CreatedTerminal.mk t.cwd (restoredTerminalName autoNameByFolder t)
        if openCount > 0 then ⟨created, true, openCount, true⟩
        else ⟨created, true, 0, true⟩

/-! ## Grid layout translator (utils, unnamed revision) -/

/-- Interface `EditorLayoutGroup`: `{ size?: number; orientation?: number; groups?: EditorLayoutGroup[] }`. -/
inductive EditorLayoutGroup where
  | node (size : Option Nat) (orientation : Option Nat)
      (subgroups : Option (List EditorLayoutGroup))

/-- The `groups` field of a layout group (`undefined` = `none`; note that in
the source an empty `groups` array is truthy, hence `some []` ≠ `none`). -/
def EditorLayoutGroup.subgroups : EditorLayoutGroup → Option (List EditorLayoutGroup)
  | .node _ _ g => g

/-- Interface `EditorLayout`: `{ orientation: number; groups: EditorLayoutGroup[] }`. -/
structure EditorLayout where
  orientation : Nat
  groups : List EditorLayoutGroup

/-- Grid dimensions as returned by `getGridDimensions`. -/
structure GridDims where
  rows : Nat
  cols : Nat
deriving DecidableEq, Repr

/-- Expression `firstGroup.groups ? firstGroup.groups.length : 1` (an array is truthy
even when empty). -/
def nestedCount (g : EditorLayoutGroup) : Nat :=
  match g.subgroups with
  | some gs => gs.length
  | none => 1

/-- Function `getGridDimensions` (grid utils): read rows × cols off the layout tree. -/
def getGridDimensions (layout : Option EditorLayout) : GridDims :=
  match layout with
  | none => ⟨1, 1⟩
  | some layout =>
    match layout.groups with
    | [] => ⟨1, 1⟩
    | firstGroup :: rest =>
      if rest.length = 0 && (firstGroup.subgroups).isNone then ⟨1, 1⟩
      else if layout.orientation = 0 then
        -- Horizontal split - we have columns
        ⟨nestedCount firstGroup, (firstGroup :: rest).length⟩
      else
        -- Vertical split - we have rows
        ⟨(firstGroup :: rest).length, nestedCount firstGroup⟩

/-- One entry of the split plan: `{ action: 'splitRight' | 'splitDown' | 'focusGroup', group?: n }`. -/
inductive SplitAction where
  | splitRight
  | splitDown
  | focusGroup (group : Nat)
deriving DecidableEq, Repr

/-- Function `createGridSplitPlan` (grid utils): `cols-1` right-splits, then (when
`rows > 1`) per column a focus (skipped when `cols == 1`) and `rows-1`
down-splits. -/
def createGridSplitPlan (rows cols : Nat) : List SplitAction :=
  if rows = 1 && cols = 1 then []
  else
    let colSplits := List.replicate (cols - 1) SplitAction.splitRight
    let rowSplits :=
      if rows > 1 then
        ((List.range cols).map fun c =>
          (if cols > 1 then [SplitAction.focusGroup (c + 1)] else []) ++
            List.replicate (rows - 1) SplitAction.splitDown).flatten
      else []
    colSplits ++ rowSplits

/-! ## Claim theorems -/

/-- C3: replaying the snapshot `{sessions: [{cwd:"/p/a", name:"a"},
{cwd:"/p/a", name:"a-dup"}, {cwd:"/p/b", name:"b"}], gracefulExit:false,
savedAt: now}` with restore enabled and no panes already open deduplicates by
cwd and creates exactly the two terminals `a` at `/p/a` and `b` at `/p/b`,
then clears the store. -/
theorem restore_scenario_a :
    restoreTerminals true true 1000000 0
      (some ⟨[⟨"/p/a", some "a"⟩, ⟨"/p/a", some "a-dup"⟩, ⟨"/p/b", some "b"⟩],
        1000000, false⟩) =
      ⟨[⟨"/p/a", some "a"⟩, ⟨"/p/b", some "b"⟩], true, 0, true⟩ := by
  decide

/-- C6: the dimensions of a layout tree whose top orientation is "stacked"
(orientation 1) with 2 children, each itself a "side-by-side" split of 3, are
2 rows × 3 columns; and the split plan for a 2×3 grid is two right-splits
followed by, per column, a focus and one down-split. -/
theorem grid_scenario_c :
    getGridDimensions (some ⟨1,
      [EditorLayoutGroup.node none (some 0) (some [.node none none none,
          .node none none none, .node none none none]),
        EditorLayoutGroup.node none (some 0) (some [.node none none none,
          .node none none none, .node none none none])]⟩) = ⟨2, 3⟩ ∧
    createGridSplitPlan 2 3 =
      [SplitAction.splitRight, SplitAction.splitRight,
        SplitAction.focusGroup 1, SplitAction.splitDown,
        SplitAction.focusGroup 2, SplitAction.splitDown,
        SplitAction.focusGroup 3, SplitAction.splitDown] := by
  constructor <;> rfl

/-- C7: for a terminal named `"proj-default"` with no stored directory, no
shell-integration cwd, no creation-time cwd and no process id, but workspace
root `/home/u/proj` open, one tracking pass resolves the terminal's directory
to `/home/u/proj`, a valid (non-sentinel) directory. -/
theorem track_scenario_d :
    trackTerminalCwd "/home/u" ["/home/u/proj"] (fun _ => none)
        ⟨"proj-default", none, none, none, none⟩ emptyCwdMap
        "proj-default-default" = some "/home/u/proj" ∧
    isValidCwd "/home/u" (some "/home/u/proj") = true := by
  constructor <;> rfl

/-- C9: a `saveTerminalState` pass that collected zero terminals and is not a
graceful exit performs no write: the durable `terminalGridState` record is
returned exactly unchanged. -/
theorem save_empty_no_write (now : Int) (store : Option TerminalState) :
    saveTerminalState [] false now store = store := rfl

/-- C1 (failing input): `trackTerminalCwd` can regress a previously valid map
entry to the home-directory sentinel. With home directory `/home/u`, a
workspace folder list `["/home/u"]`, and a terminal named `"ubuntu"` whose
tracked entry is the valid directory `/p/a` and which exposes no
shell-integration cwd, no creation cwd and no pid, the workspace-folder
name-match branch (basename `"u"` is contained in `"ubuntu"`) overwrites the
entry with `/home/u`, which `isValidCwd` itself rejects. -/
theorem track_regresses_valid_entry_to_home :
    isValidCwd "/home/u"
      ((mapSet emptyCwdMap "ubuntu-default" "/p/a") "ubuntu-default") = true ∧
    trackTerminalCwd "/home/u" ["/home/u"] (fun _ => none)
        ⟨"ubuntu", none, none, none, none⟩
        (mapSet emptyCwdMap "ubuntu-default" "/p/a") "ubuntu-default" =
      some "/home/u" ∧
    isValidCwd "/home/u" (some "/home/u") = false := by
  refine ⟨rfl, rfl, rfl⟩

/-- C2 (counterexample): the stored map value does not take priority over the
host shell-integration cwd. With a valid stored value `/p/a` for key
`"s-default"` and shell integration reporting the different valid directory
`/x/b`, `getTerminalCwd` returns `/x/b`, not the stored `/p/a`. -/
theorem stored_value_not_preferred_over_shell_integration :
    isValidCwd "/home/u"
      ((mapSet emptyCwdMap "s-default" "/p/a") "s-default") = true ∧
    (getTerminalCwd (fun _ => none) ⟨"s", none, none, some "/x/b", none⟩
        (mapSet emptyCwdMap "s-default" "/p/a")).fst = some "/x/b" ∧
    (getTerminalCwd (fun _ => none) ⟨"s", none, none, some "/x/b", none⟩
        (mapSet emptyCwdMap "s-default" "/p/a")).fst ≠
      (mapSet emptyCwdMap "s-default" "/p/a") "s-default" := by
  refine ⟨rfl, rfl, by decide⟩

/-- C2 (amended): the resolution order of `getTerminalCwd` puts the host
shell-integration cwd first — whenever shell integration exposes a (truthy)
cwd it is returned regardless of the stored value — and the stored map value
for the session's identity is returned exactly when shell integration exposes
none and the stored value is present. -/
theorem getTerminalCwd_shell_integration_first (pc : Nat → Option String)
    (t : TerminalSignals) (m : CwdMap) :
    (∀ c, jsTruthyStr t.shellIntegrationCwd = some c →
      (getTerminalCwd pc t m).fst = some c) ∧
    (jsTruthyStr t.shellIntegrationCwd = none →
      ∀ c, jsTruthyStr (m (getTerminalKey t)) = some c →
        (getTerminalCwd pc t m).fst = some c) := by
  constructor
  · intro c h
    simp [getTerminalCwd, h]
  · intro h c hc
    simp [getTerminalCwd, h, hc]

/-- Witness for `getTerminalCwd_shell_integration_first`: both priorities at
concrete inputs — shell integration `/x/b` wins over stored `/p/a`, and with
no shell integration the stored `/p/a` is returned. -/
theorem getTerminalCwd_shell_integration_first_witness :
    (getTerminalCwd (fun _ => none) ⟨"s", none, none, some "/x/b", none⟩
      (mapSet emptyCwdMap "s-default" "/p/a")).fst = some "/x/b" ∧
    (getTerminalCwd (fun _ => none) ⟨"s", none, none, none, none⟩
      (mapSet emptyCwdMap "s-default" "/p/a")).fst = some "/p/a" :=
  ⟨(getTerminalCwd_shell_integration_first (fun _ => none)
      ⟨"s", none, none, some "/x/b", none⟩
      (mapSet emptyCwdMap "s-default" "/p/a")).1 "/x/b" rfl,
   (getTerminalCwd_shell_integration_first (fun _ => none)
      ⟨"s", none, none, none, none⟩
      (mapSet emptyCwdMap "s-default" "/p/a")).2 rfl "/p/a" rfl⟩

/-- C4: when the reconciler loads a snapshot (restore enabled) that either
marks a graceful exit or is older than the one-hour staleness threshold, it
creates zero panes and clears the durable store. -/
theorem restore_graceful_or_stale_only_clears (anf : Bool) (now : Int)
    (oc : Nat) (s : TerminalState)
    (h : s.gracefulExit = true ∨ now - s.savedAt > maxAgeMs) :
    (restoreTerminals true anf now oc (some s)).created = [] ∧
    (restoreTerminals true anf now oc (some s)).storeCleared = true := by
  rcases h with hg | hs
  · simp [restoreTerminals, hg]
  · by_cases hg : s.gracefulExit <;> simp [restoreTerminals, hg, hs]

/-- Witness for `restore_graceful_or_stale_only_clears`: a graceful-exit
snapshot and a two-hour-old snapshot, both at concrete inputs. -/
theorem restore_graceful_or_stale_only_clears_witness :
    ((restoreTerminals true true 0 0 (some ⟨[⟨"/p/a", some "a"⟩], 0, true⟩)).created = [] ∧
      (restoreTerminals true true 0 0 (some ⟨[⟨"/p/a", some "a"⟩], 0, true⟩)).storeCleared = true) ∧
    ((restoreTerminals true true 7200000 0
        (some ⟨[⟨"/p/a", some "a"⟩], 0, false⟩)).created = [] ∧
      (restoreTerminals true true 7200000 0
        (some ⟨[⟨"/p/a", some "a"⟩], 0, false⟩)).storeCleared = true) :=
  ⟨restore_graceful_or_stale_only_clears true 0 0 ⟨[⟨"/p/a", some "a"⟩], 0, true⟩
      (Or.inl rfl),
   restore_graceful_or_stale_only_clears true 7200000 0
      ⟨[⟨"/p/a", some "a"⟩], 0, false⟩ (Or.inr (by decide))⟩

/-! ## Deduplication lemmas -/

/-- Function `dedupGo` with an explicit seen-set equals the spec-side first-occurrence
function applied to the not-yet-seen records. -/
theorem dedupGo_eq_keepFirst (l : List SavedTerminal) :
    ∀ seen, dedupGo seen l =
      keepFirstOccurrenceByCwd (l.filter (fun t => t.cwd ∉ seen)) := by
  induction l with
  | nil => intro seen; simp [dedupGo, keepFirstOccurrenceByCwd]
  | cons t ts ih =>
    intro seen
    by_cases h : t.cwd ∈ seen
    · simp [dedupGo, h, ih seen]
    · have hdec : (decide (t.cwd ∉ seen)) = true := by simpa using h
      rw [List.filter_cons, if_pos hdec]
      simp only [keepFirstOccurrenceByCwd]
      simp only [dedupGo, h, if_false]
      rw [ih (t.cwd :: seen), List.filter_filter]
      congr 2
      apply List.filter_congr
      intro u _
      simp [List.mem_cons, not_or, Bool.and_comm]

/-- The cwds of a `dedupGo` result are pairwise distinct and avoid the seen-set. -/
theorem dedupGo_cwds_nodup (l : List SavedTerminal) :
    ∀ seen, ((dedupGo seen l).map (·.cwd)).Nodup ∧
      ∀ x ∈ (dedupGo seen l).map (·.cwd), x ∉ seen := by
  induction l with
  | nil => intro seen; simp [dedupGo]
  | cons t ts ih =>
    intro seen
    by_cases h : t.cwd ∈ seen
    · simpa [dedupGo, h] using ih seen
    · obtain ⟨hnd, hout⟩ := ih (t.cwd :: seen)
      refine ⟨?_, ?_⟩
      · simp only [dedupGo, h, if_false, List.map_cons, List.nodup_cons]
        exact ⟨fun hx => (hout _ hx) (List.mem_cons_self _ _), hnd⟩
      · intro x hx
        simp only [dedupGo, h, if_false, List.map_cons, List.mem_cons] at hx
        rcases hx with rfl | hx
        · exact h
        · exact fun hs => (hout _ hx) (List.mem_cons_of_mem _ hs)

/-- A list whose cwds are pairwise distinct and avoid the seen-set passes
through `dedupGo` unchanged. -/
theorem dedupGo_of_nodup (l : List SavedTerminal) :
    ∀ seen, ((l.map (·.cwd)).Nodup) → (∀ t ∈ l, t.cwd ∉ seen) →
      dedupGo seen l = l := by
  induction l with
  | nil => intro seen _ _; rfl
  | cons t ts ih =>
    intro seen hnd hdisj
    have ht : t.cwd ∉ seen := hdisj t (List.mem_cons_self _ _)
    simp only [List.map_cons, List.nodup_cons] at hnd
    rw [dedupGo, if_neg ht]
    congr 1
    refine ih (t.cwd :: seen) hnd.2 ?_
    intro u hu
    simp only [List.mem_cons, not_or]
    exact ⟨fun he => hnd.1 (he ▸ List.mem_map_of_mem (·.cwd) hu),
      hdisj u (List.mem_cons_of_mem _ hu)⟩

/-- The cwds of a deduplicated list are pairwise distinct. -/
theorem dedup_cwds_nodup (l : List SavedTerminal) :
    ((deduplicateTerminalsByCwd l).map (·.cwd)).Nodup :=
  (dedupGo_cwds_nodup l []).1

/-- A list with pairwise-distinct cwds deduplicates to itself. -/
theorem dedup_of_nodup (l : List SavedTerminal)
    (h : (l.map (·.cwd)).Nodup) : deduplicateTerminalsByCwd l = l :=
  dedupGo_of_nodup l [] h (by simp)

/-- Function `hasDuplicateCwds` answers `false` exactly on lists with pairwise-distinct cwds. -/
theorem hasDuplicateCwds_false_iff (l : List SavedTerminal) :
    hasDuplicateCwds l = false ↔ (l.map (·.cwd)).Nodup := by
  rw [hasDuplicateCwds, decide_eq_false_iff_not, not_lt]
  constructor
  · intro h
    have hle := (List.dedup_sublist (l.map (·.cwd))).length_le
    have heq := (List.dedup_sublist (l.map (·.cwd))).eq_of_length (le_antisymm hle h)
    exact List.dedup_eq_self.mp heq
  · intro h
    rw [List.dedup_eq_self.mpr h]

/-- C5: `deduplicateTerminalsByCwd` keeps exactly the first occurrence of each
distinct cwd, in original order (it equals the spec-side first-occurrence
function), and it is idempotent. -/
theorem dedup_first_occurrence_and_idempotent (l : List SavedTerminal) :
    deduplicateTerminalsByCwd l = keepFirstOccurrenceByCwd l ∧
    deduplicateTerminalsByCwd (deduplicateTerminalsByCwd l) =
      deduplicateTerminalsByCwd l :=
  ⟨by simpa [deduplicateTerminalsByCwd] using dedupGo_eq_keepFirst l [],
    dedup_of_nodup _ (dedup_cwds_nodup l)⟩

/-- C10: `hasDuplicateCwds` returns `false` exactly when
`deduplicateTerminalsByCwd` returns its input unchanged. -/
theorem hasDuplicateCwds_false_iff_dedup_identity (l : List SavedTerminal) :
    hasDuplicateCwds l = false ↔ deduplicateTerminalsByCwd l = l := by
  rw [hasDuplicateCwds_false_iff]
  constructor
  · exact dedup_of_nodup l
  · intro h
    have := dedup_cwds_nodup l
    rwa [h] at this

/-! ## Claude process-name matching -/

/-- Predicate `strEndsWith` holds exactly when the string decomposes as some prefix
followed by the suffix. -/
theorem strEndsWith_iff (s suffix : String) :
    strEndsWith s suffix = true ↔ ∃ p : String, s = p ++ suffix := by
  rw [strEndsWith, List.isSuffixOf_iff_suffix]
  constructor
  · rintro ⟨pre, hpre⟩
    refine ⟨String.mk pre, String.ext ?_⟩
    rw [String.data_append]
    exact hpre.symm
  · rintro ⟨p, rfl⟩
    exact ⟨p.data, (String.data_append p suffix).symm⟩

/-- C8: `isClaudeProcess` matches `"claude"` and `"/usr/local/bin/claude"`
but rejects `"claude-helper"` and `"some-claude-thing"`, and in general it
accepts a name exactly when the lowercased, trimmed name is `"claude"` or is
some prefix followed by `"/claude"` — exact-or-suffix, never substring. -/
theorem isClaudeProcess_exact_or_suffix :
    isClaudeProcess "claude" = true ∧
    isClaudeProcess "/usr/local/bin/claude" = true ∧
    isClaudeProcess "claude-helper" = false ∧
    isClaudeProcess "some-claude-thing" = false ∧
    ∀ s : String, isClaudeProcess s = true ↔
      (strTrim (strToLower s) = "claude" ∨
        ∃ p : String, strTrim (strToLower s) = p ++ "/claude") := by
  refine ⟨by decide, by decide, by decide, by decide, ?_⟩
  intro s
  rw [isClaudeProcess]
  simp only [Bool.or_eq_true, beq_iff_eq, strEndsWith_iff]
